import Mathlib

/-!
Verification of the reactrix-store core against its natural-language
specification.  The Rust sources under `src/` are shallowly embedded:

* `src/datastore.rs` — content-addressed blob store (`DataStore::store`,
  `DataStore::retrieve`) with BLAKE2s content hashing, duplicate detection
  and collision reporting;
* `src/eventstore.rs`, `src/eventstore/postgres.rs`, `src/eventstore/mongo.rs`
  — sequenced event log (`EventStore::store`, error taxonomy, the Mongo
  counter-based sequence assignment);
* `src/mq.rs` — the ZeroMQ notification worker (`publish`) and the
  connection-lifecycle monitor (`poll_monitor`);
* `src/main.rs` — the `event_put` handler, as far as the error-propagation
  claims need it.

Machine integers are modelled as `Nat`/`Int` with explicit reduction
modulo 2^32 / 2^64 where the Rust code wraps; byte strings are
`List Nat` with every entry a byte value.
-/

set_option maxRecDepth 16000

namespace ReactrixStore

/-- Byte strings: each element is one byte (a value below 256 in every byte
string our definitions produce). -/
abbrev Bytes := List Nat

/-! ### Hex encoding (the `hex` crate's `hex::encode`, lowercase) -/

/-- Lowercase hex digit for a value below 16, as `hex::encode` produces. -/
def hexDigitChar (n : Nat) : Char :=
  if n < 10 then Char.ofNat (48 + n) else Char.ofNat (87 + n)

/-- Two lowercase hex digits of one byte, high nibble first. -/
def hexByte (b : Nat) : List Char :=
  [hexDigitChar (b / 16), hexDigitChar (b % 16)]

/-- Lowercase hex string of a byte string, `hex::encode`. -/
def hexEncode (bs : Bytes) : String :=
  String.mk (bs.foldr (fun b acc => hexByte b ++ acc) [])

/-! ### BLAKE2s-256

`DataStore::store` computes `Blake2s::digest(data)` (`blake2` crate): the
unkeyed BLAKE2s hash with 32-byte digest length, per RFC 7693.  Words are
32-bit, modelled as `Nat` reduced mod 2^32. -/

/-- Word-size modulus for BLAKE2s: 2^32. -/
def w32 : Nat := 4294967296

/-- Rotate a 32-bit word right by `n` bits (for a word below 2^32). -/
def rotr32 (x n : Nat) : Nat :=
  x / 2 ^ n + x % 2 ^ n * 2 ^ (32 - n)

/-- BLAKE2s initialization vector (the SHA-256 IV words), RFC 7693 §2.6. -/
def blakeIV : List Nat :=
  [0x6A09E667, 0xBB67AE85, 0x3C6EF372, 0xA54FF53A,
   0x510E527F, 0x9B05688C, 0x1F83D9AB, 0x5BE0CD19]

/-- BLAKE2s message schedule SIGMA, RFC 7693 §2.7 (ten rounds). -/
def blakeSigma : List (List Nat) :=
  [[0, 1, 2, 3, 4, 5, 6, 7, 8, 9, 10, 11, 12, 13, 14, 15],
   [14, 10, 4, 8, 9, 15, 13, 6, 1, 12, 0, 2, 11, 7, 5, 3],
   [11, 8, 12, 0, 5, 2, 15, 13, 10, 14, 3, 6, 7, 1, 9, 4],
   [7, 9, 3, 1, 13, 12, 11, 14, 2, 6, 5, 10, 4, 0, 15, 8],
   [9, 0, 5, 7, 2, 4, 10, 15, 14, 1, 11, 12, 6, 8, 3, 13],
   [2, 12, 6, 10, 0, 11, 8, 3, 4, 13, 7, 5, 15, 14, 1, 9],
   [12, 5, 1, 15, 14, 13, 4, 10, 0, 7, 6, 3, 9, 2, 8, 11],
   [13, 11, 7, 14, 12, 1, 3, 9, 5, 0, 15, 4, 8, 6, 2, 10],
   [6, 15, 14, 9, 11, 3, 0, 8, 12, 2, 13, 7, 1, 4, 10, 5],
   [10, 2, 8, 4, 7, 6, 1, 5, 15, 11, 9, 14, 3, 12, 13, 0]]

/-- BLAKE2s mixing function G (RFC 7693 §3.1) applied to the working vector
`v` at positions `a b c d` with message words `x y`; rotation amounts
16, 12, 8, 7. -/
def gMix (v : List Nat) (a b c d : Nat) (x y : Nat) : List Nat :=
  let va := (v.getD a 0 + v.getD b 0 + x) % w32
  let vd := rotr32 (Nat.xor (v.getD d 0) va) 16
  let vc := (v.getD c 0 + vd) % w32
  let vb := rotr32 (Nat.xor (v.getD b 0) vc) 12
  let va2 := (va + vb + y) % w32
  let vd2 := rotr32 (Nat.xor vd va2) 8
  let vc2 := (vc + vd2) % w32
  let vb2 := rotr32 (Nat.xor vb vc2) 7
  ((((v.set a va2).set b vb2).set c vc2).set d vd2)

/-- One BLAKE2s round: eight G applications (column then diagonal steps)
driven by one SIGMA row `s` over message words `m`. -/
def blakeRound (m : List Nat) (v : List Nat) (s : List Nat) : List Nat :=
  let mw := fun i => m.getD (s.getD i 0) 0
  let v1 := gMix v 0 4 8 12 (mw 0) (mw 1)
  let v2 := gMix v1 1 5 9 13 (mw 2) (mw 3)
  let v3 := gMix v2 2 6 10 14 (mw 4) (mw 5)
  let v4 := gMix v3 3 7 11 15 (mw 6) (mw 7)
  let v5 := gMix v4 0 5 10 15 (mw 8) (mw 9)
  let v6 := gMix v5 1 6 11 12 (mw 10) (mw 11)
  let v7 := gMix v6 2 7 8 13 (mw 12) (mw 13)
  let v8 := gMix v7 3 4 9 14 (mw 14) (mw 15)
  v8

/-- BLAKE2s compression function F (RFC 7693 §3.2): state `h` (8 words),
message block `m` (16 words), byte offset `t`, final-block flag `last`. -/
def blake2sCompress (h : List Nat) (m : List Nat) (t : Nat) (last : Bool) : List Nat :=
  let v0 := h ++ blakeIV
  let v1 := v0.set 12 (Nat.xor (v0.getD 12 0) (t % w32))
  let v2 := v1.set 13 (Nat.xor (v1.getD 13 0) (t / w32 % w32))
  let v3 := if last then v2.set 14 (Nat.xor (v2.getD 14 0) 4294967295) else v2
  let v := blakeSigma.foldl (blakeRound m) v3
  (List.range 8).map (fun i => Nat.xor (h.getD i 0) (Nat.xor (v.getD i 0) (v.getD (i + 8) 0)))

/-- Little-endian 32-bit word read at byte offset `i` of a byte string,
zero-padded past the end (the zero padding of the final block). -/
def wordAt (bs : Bytes) (i : Nat) : Nat :=
  bs.getD i 0 + bs.getD (i + 1) 0 * 256 + bs.getD (i + 2) 0 * 65536
    + bs.getD (i + 3) 0 * 16777216

/-- Sixteen little-endian message words of the 64-byte block at byte
offset `off`. -/
def blockWords (bs : Bytes) (off : Nat) : List Nat :=
  (List.range 16).map (fun k => wordAt bs (off + 4 * k))

/-- Four little-endian bytes of a 32-bit word. -/
def bytesOfWord32 (x : Nat) : Bytes :=
  [x % 256, x / 256 % 256, x / 65536 % 256, x / 16777216 % 256]

/-- One sequential step of BLAKE2s over the `i`-th 64-byte block of `bs`,
where `ll` is the total byte length and `dd` the block count: intermediate
blocks use the running byte offset, the final block the total length and
the final flag. -/
def blake2sStep (bs : Bytes) (ll dd : Nat) (h : List Nat) (i : Nat) : List Nat :=
  if i + 1 = dd then blake2sCompress h (blockWords bs (64 * i)) ll true
  else blake2sCompress h (blockWords bs (64 * i)) ((i + 1) * 64) false

/-- Unkeyed BLAKE2s with 32-byte digest (`Blake2s::digest` of the `blake2`
crate): parameter word 0x01010020 (fanout 1, depth 1, digest length 32)
xored into IV0; message processed in 64-byte blocks, an empty input as a
single zero block; the digest is the little-endian serialization of the
eight state words. -/
def blake2s256 (bs : Bytes) : Bytes :=
  let ll := bs.length
  let dd := if ll = 0 then 1 else (ll + 63) / 64
  let h0 := blakeIV.set 0 (Nat.xor (blakeIV.getD 0 0) 0x01010020)
  let h := (List.range dd).foldl (blake2sStep bs ll dd) h0
  h.foldr (fun wd acc => bytesOfWord32 wd ++ acc) []

/-! ### Content store — `src/datastore.rs`

`DataStoreError` (lines 24–32), `DataStore::store` (47–68) and
`DataStore::retrieve` (70–82).  The backend table is an association list of
`(hash, data)` rows; the backend faults that `store`'s pre-insert `retrieve`
and the insert itself can raise are injected as explicit `Option String`
parameters (`none` = the backend call succeeds). -/

/-- Error type of `src/datastore.rs` (`DataStoreError`). -/
inductive DataStoreError
  | Database (msg : String)
  | NoRecord
  | Collision (hexHash : String)
deriving DecidableEq, Repr

/-- Backend table of the content store: the `(hash, data)` rows in insertion
order. -/
abbrev StoreState := List (Bytes × Bytes)

/-- First row with the given hash, as the backend's `filter(hash.eq(id)).first`. -/
def lookupHash : StoreState → Bytes → Option Bytes
  | [], _ => none
  | (h, d) :: rest, id => if h = id then some d else lookupHash rest id

/-- Embeds `DataStore::retrieve`: select the row's data by exact hash;
a missing row is `NoRecord` (`DieselError::NotFound` mapped at line 79). -/
def retrieveOp (st : StoreState) (id : Bytes) : Except DataStoreError Bytes :=
  match lookupHash st id with
  | some d => Except.ok d
  | none => Except.error DataStoreError.NoRecord

/-- Embeds `DataStore::store` (datastore.rs lines 47–68) with the content
hash abstracted as the parameter `hash` (the source fixes it to
`Blake2s::digest`, instantiated in `storeOp`) and the two backend calls'
failure modes injected: `retrieveFault msg` makes the pre-insert `retrieve`
return `Database msg`, `insertFault msg` makes the insert fail likewise.
The source's `if let Ok(stored) = self.retrieve(&hash)` lands every failing
retrieve — `NoRecord` and `Database` alike — in the insert branch. -/
def storeOpFull (hash : Bytes → Bytes) (retrieveFault insertFault : Option String)
    (st : StoreState) (d : Bytes) : Except DataStoreError (Bytes × StoreState) :=
  let h := hash d
  let fetched : Except DataStoreError Bytes :=
    match retrieveFault with
    | some msg => Except.error (DataStoreError.Database msg)
    | none => retrieveOp st h
  match fetched with
  | Except.ok stored =>
      if d = stored then Except.ok (h, st)
      else Except.error (DataStoreError.Collision (hexEncode h))
  | Except.error _ =>
      match insertFault with
      | some msg => Except.error (DataStoreError.Database msg)
      | none => Except.ok (h, st ++ [(h, d)])

/-- `DataStore::store` on a healthy backend: hash fixed to `Blake2s::digest`,
no injected backend faults. -/
def storeOp (st : StoreState) (d : Bytes) : Except DataStoreError (Bytes × StoreState) :=
  storeOpFull blake2s256 none none st d

/-! ### Event store — `src/eventstore.rs` and backends

`EventStoreError` (eventstore.rs lines 25–31), the `From<DieselError>`
mapping (eventstore/postgres.rs lines 51–58), `PostgresEventStore::store`
(35–40) and `MongoEventStore::store` (mongo.rs lines 36–58). -/

/-- Error type of `src/eventstore.rs` (`EventStoreError`): only a generic
`Database` variant (carrying the rendered backend message) and `NoRecord`. -/
inductive EventStoreError
  | Database (msg : String)
  | NoRecord
deriving DecidableEq, Repr

/-- Kinds of `diesel::result::DatabaseErrorKind` relevant here. -/
inductive DatabaseErrorKind
  | UniqueViolation
  | ForeignKeyViolation
  | SerializationFailure
  | Unknown
deriving DecidableEq, Repr

/-- The diesel error type as `PostgresEventStore` sees it: `NotFound`,
`DatabaseError(kind, info)` (a unique-key violation is
`DatabaseError(UniqueViolation, _)`), and the remaining variants collapsed
into `other`. -/
inductive DieselError
  | NotFound
  | DatabaseError (kind : DatabaseErrorKind) (msg : String)
  | other (msg : String)
deriving DecidableEq, Repr

/-- Rendering of a diesel error (`error.to_string()`): a database error
displays its backend message. -/
def dieselDisplay : DieselError → String
  | DieselError.NotFound => "Record not found"
  | DieselError.DatabaseError _ msg => msg
  | DieselError.other msg => msg

/-- Embeds `impl From<DieselError> for EventStoreError`
(eventstore/postgres.rs lines 51–58): `NotFound` becomes `NoRecord`; every
other diesel error — unique-sequence violations included — becomes
`Database(error.to_string())`. -/
def eventStoreErrorOfDiesel : DieselError → EventStoreError
  | DieselError.NotFound => EventStoreError.NoRecord
  | e => EventStoreError.Database (dieselDisplay e)

/-- An `events` row as returned by the insert (`get_result`); only
`sequence` is read by `store`. -/
structure EventRec where
  sequence : Int
deriving DecidableEq, Repr

/-- Embeds `PostgresEventStore::store` (eventstore/postgres.rs lines 35–40):
a single `insert_into(events).get_result` call whose outcome is `outcomes 0`
(the backend's successive would-be answers are `outcomes 0, outcomes 1, …`;
the code performs exactly one attempt), with a failure mapped through
`From<DieselError>` and no retry. -/
def postgresStore (outcomes : Nat → Except DieselError EventRec) : Except EventStoreError Int :=
  match outcomes 0 with
  | Except.ok ev => Except.ok ev.sequence
  | Except.error e => Except.error (eventStoreErrorOfDiesel e)

/-- Caller-supplied event (`reactrix::NewEvent`): schema version and the
opaque structured payload (opaque to the store, kept as a string). -/
structure NewEvent where
  version : Int
  data : String
deriving DecidableEq, Repr

/-- A persisted event document: backend-assigned `sequence` and `timestamp`
plus the caller's fields. -/
structure StoredEvent where
  sequence : Int
  version : Int
  data : String
  timestamp : Nat
deriving DecidableEq, Repr

/-- State of the Mongo event backend: the `counters` document's `sequence`
value and the `events` collection in insertion order. -/
structure MongoEventState where
  counter : Int
  events : List StoredEvent
deriving DecidableEq, Repr

/-- Embeds `MongoEventStore::store` (eventstore/mongo.rs lines 36–58) on the
happy path: `find_one_and_update` atomically reads the counter document
(returning its pre-update value, the assigned sequence) and increments it;
the event document is then inserted with that sequence and the current
timestamp `now`, and the sequence is returned. -/
def mongoStore (st : MongoEventState) (e : NewEvent) (now : Nat) : Int × MongoEventState :=
  let seq := st.counter
  (seq, ⟨st.counter + 1, st.events ++ [⟨seq, e.version, e.data, now⟩]⟩)

/-- Sequential batch of appends: the assigned sequences in order, and the
final backend state. -/
def appendAll (st : MongoEventState) : List (NewEvent × Nat) → List Int × MongoEventState
  | [] => ([], st)
  | (e, now) :: rest =>
      let r := mongoStore st e now
      let rr := appendAll r.2 rest
      (r.1 :: rr.1, rr.2)

/-- Maximum of a list of integers, `none` when empty. -/
def maxInts : List Int → Option Int
  | [] => none
  | x :: xs => some (xs.foldl max x)

/-- Modelled from the spec: `current_sequence()` is absent from the
`EventStore` trait in `src/eventstore.rs` (only its caller,
`sequence_get` in `src/main.rs`, is in the sources); per the spec it
"returns the highest assigned sequence", i.e. the maximum `sequence`
over the stored events. -/
def currentSequence (st : MongoEventState) : Option Int :=
  maxInts (st.events.map (fun e => e.sequence))

/-! ### Notification broker — `src/mq.rs`

The `publish` worker (lines 53–87) drains an mpsc queue of
`PublishMessage`s and writes two-part frames to the PUB socket; the
`poll_monitor` worker (lines 92–105) consumes the socket's lifecycle
monitor messages.  Transport faults (msgpack encode failure, socket send
failure) are injected per queue item. -/

/-- Work items of the notification queue (`PublishMessage`, mq.rs
lines 33–36): a new latest sequence, or a verbatim topic/payload forward
(`Message`, lines 26–31). -/
inductive PublishMessage
  | Sequence (id : Int)
  | Forward (topic : String) (data : Bytes)
deriving DecidableEq, Repr

/-- A two-part wire frame on the PUB socket: topic part then payload part
(sent with `SNDMORE` then final). -/
structure Frame where
  topic : String
  payload : Bytes
deriving DecidableEq, Repr

/-- Big-endian byte string of width `w` for a value below 2^(8w). -/
def beBytes : Nat → Nat → Bytes
  | 0, _ => []
  | wd + 1, n => beBytes wd (n / 256) ++ [n % 256]

/-- Embeds `rmp_serde::to_vec` on an `i64` (`rmp::encode::write_sint`): the
most compact MessagePack representation — positive/negative fixint, then
uint8/int8, uint16/int16, uint32/int32, uint64/int64, multi-byte values
big-endian, negatives in two's complement. -/
def rmpEncodeI64 (n : Int) : Bytes :=
  if -32 ≤ n ∧ n < 0 then [(n + 256).toNat]
  else if 0 ≤ n ∧ n < 128 then [n.toNat]
  else if -128 ≤ n ∧ n < -32 then [0xd0, (n + 256).toNat]
  else if 128 ≤ n ∧ n < 256 then [0xcc, n.toNat]
  else if -32768 ≤ n ∧ n < -128 then 0xd1 :: beBytes 2 (n + 65536).toNat
  else if 256 ≤ n ∧ n < 65536 then 0xcd :: beBytes 2 n.toNat
  else if -2147483648 ≤ n ∧ n < -32768 then 0xd2 :: beBytes 4 (n + 4294967296).toNat
  else if 65536 ≤ n ∧ n < 4294967296 then 0xce :: beBytes 4 n.toNat
  else if n < -2147483648 then 0xd3 :: beBytes 8 (n + 18446744073709551616).toNat
  else 0xcf :: beBytes 8 n.toNat

/-- The frame a queue item produces when encode and send succeed
(mq.rs lines 56–84): topic `"sequence"` with the msgpack-encoded id, or the
forwarded topic and payload verbatim. -/
def itemFrame : PublishMessage → Frame
  | PublishMessage.Sequence id => ⟨"sequence", rmpEncodeI64 id⟩
  | PublishMessage.Forward t d => ⟨t, d⟩

/-- Injected transport faults for one queue item: `encodeFail` makes
`rmp::to_vec` fail (the `continue` branch, lines 61–64), `sendFail` makes
the socket send fail (the logged `if let Err` branches). -/
structure SendFaults where
  encodeFail : Bool
  sendFail : Bool
deriving DecidableEq, Repr

/-- A fault-free queue item. -/
def noFaults : SendFaults := ⟨false, false⟩

/-- Embeds the `publish` worker loop (mq.rs lines 53–87): the single thread
drains the queue in FIFO order; each item yields its frame, except that an
encode failure or a send failure drops that one item (logged) and the loop
continues with the next. -/
def runWorker : List (PublishMessage × SendFaults) → List Frame
  | [] => []
  | (m, f) :: rest =>
    match m with
    | PublishMessage.Sequence id =>
        if f.encodeFail then runWorker rest
        else if f.sendFail then runWorker rest
        else ⟨"sequence", rmpEncodeI64 id⟩ :: runWorker rest
    | PublishMessage.Forward t d =>
        if f.sendFail then runWorker rest
        else ⟨t, d⟩ :: runWorker rest

/-- Whether the injected faults make the worker drop a given item: a
`Sequence` item is dropped on an encode failure or a send failure, a
`Forward` item (which performs no encoding) only on a send failure. -/
def dropsItem (m : PublishMessage) (f : SendFaults) : Bool :=
  match m with
  | PublishMessage.Sequence _ => f.encodeFail || f.sendFail
  | PublishMessage.Forward _ _ => f.sendFail

/-- Socket lifecycle events delivered to the monitor pair socket: the raw
event word decoded by `SocketEvent::from_raw` (mq.rs line 98). -/
inductive SocketEventKind
  | accepted
  | closed
  | other (raw : Nat)
deriving DecidableEq, Repr

/-- Log entries the monitor worker can produce. -/
inductive LogEntry
  | debugAccepted (name : String)
  | debugClosed (name : String)
  | errorUnexpected
deriving DecidableEq, Repr

/-- Embeds the body of `poll_monitor`'s match (mq.rs lines 98–102): an
`ACCEPTED` or `CLOSED` event is logged at debug level, anything else logs
an error.  Nothing else happens. -/
def pollMonitorStep (name : String) : SocketEventKind → LogEntry
  | SocketEventKind.accepted => LogEntry.debugAccepted name
  | SocketEventKind.closed => LogEntry.debugClosed name
  | SocketEventKind.other _ => LogEntry.errorUnexpected

/-- The complete observable effect of `poll_monitor` on one monitor message
(mq.rs lines 92–105): the log entry, the frames it writes to the PUB
socket, and the work items it enqueues onto the broker queue.  The monitor
thread captures only `name` and the monitor socket — it has no access to
the PUB socket or the mpsc sender — so the latter two are empty. -/
def pollMonitorEffect (name : String) (e : SocketEventKind) :
    LogEntry × List Frame × List PublishMessage :=
  (pollMonitorStep name e, [], [])

/-- One full run of the broker process: the publish worker drains its queue
while the monitor worker consumes its lifecycle events; everything written
to the PUB socket comes from the publish worker (the monitor only logs). -/
def brokerRun (queue : List (PublishMessage × SendFaults))
    (monitorEvents : List SocketEventKind) : List Frame × List LogEntry :=
  (runWorker queue
     ++ (monitorEvents.map (fun e => (pollMonitorEffect "Publish" e).2.1)).flatten,
   monitorEvents.map (pollMonitorStep "Publish"))

/-! ### HTTP frontend glue — `src/main.rs`

Only `event_put` (lines 98–127) matters to the claims: its response as a
function of the store outcome, the `tx.lock()` outcome and the
`tx.send(PublishMessage::Sequence(i))` outcome. -/

/-- Responses `event_put` can produce: 201 Created with the sequence, or an
`error_response(reason, status)`. -/
inductive ApiResponse
  | created (sequence : Int)
  | failure (reason : String) (status : Nat)
deriving DecidableEq, Repr

/-- Rendering of an `EventStoreError` (`#[fail(display = ...)]` attributes
in eventstore.rs lines 25–31). -/
def eventStoreErrorDisplay : EventStoreError → String
  | EventStoreError.Database msg => "Database error: " ++ msg
  | EventStoreError.NoRecord => "Record not found"

/-- Embeds `event_put` (main.rs lines 98–127): on a successful store the
handler locks the shared sender and enqueues `Sequence(i)`; a send failure
(receiver gone) yields a 500 "Created but couldn't notify"; a lock failure
yields a 500; a store failure yields a 500 with the store error's text. -/
def eventPutResponse (storeResult : Except EventStoreError Int)
    (lockResult : Except String Unit) (sendResult : Except String Unit) : ApiResponse :=
  match storeResult with
  | Except.ok i =>
    match lockResult with
    | Except.ok _ =>
      match sendResult with
      | Except.ok _ => ApiResponse.created i
      | Except.error e =>
          ApiResponse.failure ("Created but couldn't notify: " ++ e) 500
    | Except.error e => ApiResponse.failure e 500
  | Except.error e => ApiResponse.failure (eventStoreErrorDisplay e) 500

/-! ## Helper lemmas -/

/-- The compression function always returns eight state words. -/
theorem blake2sCompress_length (h m : List Nat) (t : Nat) (last : Bool) :
    (blake2sCompress h m t last).length = 8 := by
  simp [blake2sCompress]

/-- Each sequential block step keeps eight state words. -/
theorem blake2sStep_length (bs : Bytes) (ll dd : Nat) (h : List Nat) (i : Nat) :
    (blake2sStep bs ll dd h i).length = 8 := by
  unfold blake2sStep
  split <;> exact blake2sCompress_length ..

/-- Folding the block steps keeps eight state words. -/
theorem foldl_blake2sStep_length (bs : Bytes) (ll dd : Nat) (l : List Nat)
    (h : List Nat) (hh : h.length = 8) :
    (l.foldl (blake2sStep bs ll dd) h).length = 8 := by
  induction l generalizing h with
  | nil => exact hh
  | cons a l ih =>
      simp only [List.foldl_cons]
      exact ih _ (blake2sStep_length ..)

/-- Serializing `k` state words yields `4 * k` bytes. -/
theorem foldr_bytesOfWord32_length (h : List Nat) :
    (h.foldr (fun wd acc => bytesOfWord32 wd ++ acc) []).length = 4 * h.length := by
  induction h with
  | nil => simp
  | cons x xs ih =>
      simp only [List.foldr_cons, List.length_append, List.length_cons, ih]
      have h4 : (bytesOfWord32 x).length = 4 := rfl
      omega

/-- The BLAKE2s digest of any byte string has exactly 32 bytes. -/
theorem blake2s256_length (bs : Bytes) : (blake2s256 bs).length = 32 := by
  simp only [blake2s256]
  rw [foldr_bytesOfWord32_length,
    foldl_blake2sStep_length _ _ _ _ _ (by simp [blakeIV])]

/-- Appending a fresh row makes it the one `lookupHash` finds for its hash. -/
theorem lookupHash_append_self (st : StoreState) (id d : Bytes)
    (h : lookupHash st id = none) : lookupHash (st ++ [(id, d)]) id = some d := by
  induction st with
  | nil => simp [lookupHash]
  | cons p rest ih =>
      obtain ⟨ph, pd⟩ := p
      by_cases hp : ph = id
      · simp [lookupHash, hp] at h
      · simp only [List.cons_append, lookupHash, if_neg hp] at h ⊢
        exact ih h

/-- A successful `store` leaves the stored bytes retrievable under the
computed hash: the returned hash is `hash d` and the resulting table maps
it to `d` (either the pre-existing identical row or the inserted one). -/
theorem storeOpFull_ok_lookup (hash : Bytes → Bytes) (st st2 : StoreState)
    (d h : Bytes) (hok : storeOpFull hash none none st d = Except.ok (h, st2)) :
    h = hash d ∧ lookupHash st2 (hash d) = some d := by
  unfold storeOpFull at hok
  cases hl : lookupHash st (hash d) with
  | some stored =>
      simp only [retrieveOp, hl] at hok
      by_cases hd : d = stored
      · simp only [if_pos hd] at hok
        obtain ⟨h1, h2⟩ := Prod.mk.injEq .. ▸ Except.ok.inj hok
        exact ⟨h1.symm, by rw [← h2, hl, hd]⟩
      · simp [if_neg hd] at hok
  | none =>
      simp only [retrieveOp, hl] at hok
      obtain ⟨h1, h2⟩ := Prod.mk.injEq .. ▸ Except.ok.inj hok
      exact ⟨h1.symm, by rw [← h2]; exact lookupHash_append_self st _ d hl⟩

/-! ## Claims -/

/-- C1: for every byte sequence `d`, `ContentStore.store d` computes the
content hash of `d` and: if a row for that hash holds byte-identical data,
it returns the existing hash with the table unchanged (idempotent no-op);
if a row holds different bytes, it fails with `Collision` carrying the
hex-encoded hash; if no row exists, it persists `(hash, d)` and returns
the hash. -/
theorem store_dedup_collision_insert (st : StoreState) (d stored : Bytes) :
    (lookupHash st (blake2s256 d) = some d → storeOp st d = Except.ok (blake2s256 d, st)) ∧
    (lookupHash st (blake2s256 d) = some stored → d ≠ stored →
      storeOp st d = Except.error (DataStoreError.Collision (hexEncode (blake2s256 d)))) ∧
    (lookupHash st (blake2s256 d) = none →
      storeOp st d = Except.ok (blake2s256 d, st ++ [(blake2s256 d, d)])) := by
  refine ⟨fun h => ?_, fun h hne => ?_, fun h => ?_⟩
  · simp [storeOp, storeOpFull, retrieveOp, h]
  · simp [storeOp, storeOpFull, retrieveOp, h, hne]
  · simp [storeOp, storeOpFull, retrieveOp, h]

/-- Witness for C1: the three branches at concrete inputs — duplicate
write of `[1,2,3]` is a no-op returning the same hash, a different payload
under the same hash is a `Collision` with the hex digest, and a fresh
write inserts the row. -/
theorem store_dedup_collision_insert_spot :
    storeOp [(blake2s256 [1, 2, 3], [1, 2, 3])] [1, 2, 3]
      = Except.ok (blake2s256 [1, 2, 3], [(blake2s256 [1, 2, 3], [1, 2, 3])]) ∧
    storeOp [(blake2s256 [1, 2, 3], [7])] [1, 2, 3]
      = Except.error (DataStoreError.Collision (hexEncode (blake2s256 [1, 2, 3]))) ∧
    storeOp [] [1, 2, 3]
      = Except.ok (blake2s256 [1, 2, 3], [(blake2s256 [1, 2, 3], [1, 2, 3])]) :=
  ⟨(store_dedup_collision_insert [(blake2s256 [1, 2, 3], [1, 2, 3])] [1, 2, 3] [7]).1
      (by decide),
   (store_dedup_collision_insert [(blake2s256 [1, 2, 3], [7])] [1, 2, 3] [7]).2.1
      (by decide) (by decide),
   (store_dedup_collision_insert [] [1, 2, 3] [7]).2.2 (by decide)⟩

/-- C5: round-trip — whenever `store` succeeds returning hash `h` and the
new table, `retrieve h` on that table returns exactly the stored bytes. -/
theorem store_retrieve_roundtrip (st st2 : StoreState) (d h : Bytes)
    (hok : storeOp st d = Except.ok (h, st2)) :
    retrieveOp st2 h = Except.ok d := by
  obtain ⟨hh, hl⟩ := storeOpFull_ok_lookup blake2s256 st st2 d h hok
  simp [retrieveOp, hh, hl]

/-- Witness for C5: storing `[1,2,3]` into the empty table and retrieving
its hash gives back `[1,2,3]`. -/
theorem store_retrieve_roundtrip_spot :
    retrieveOp [(blake2s256 [1, 2, 3], [1, 2, 3])] (blake2s256 [1, 2, 3])
      = Except.ok [1, 2, 3] :=
  store_retrieve_roundtrip [] [(blake2s256 [1, 2, 3], [1, 2, 3])] [1, 2, 3]
    (blake2s256 [1, 2, 3]) rfl

/-- C6: for byte sequences `d1 ≠ d2` whose content hashes collide (the
content hash abstracted as a parameter, since the dedup logic of
`DataStore::store` is the same for any digest), storing `d2` after a
successful store of `d1` fails with `Collision` carrying the hex-encoded
hash and leaves the table unchanged — the colliding hash still retrieves
the original bytes `d1`. -/
theorem collision_keeps_original (hash : Bytes → Bytes) (st st1 : StoreState)
    (d1 d2 h1 : Bytes) (hcol : hash d1 = hash d2) (hne : d1 ≠ d2)
    (h1ok : storeOpFull hash none none st d1 = Except.ok (h1, st1)) :
    storeOpFull hash none none st1 d2
      = Except.error (DataStoreError.Collision (hexEncode (hash d2))) ∧
    retrieveOp st1 (hash d2) = Except.ok d1 := by
  obtain ⟨-, hl⟩ := storeOpFull_ok_lookup hash st st1 d1 h1 h1ok
  rw [hcol] at hl
  have hne2 : d2 ≠ d1 := Ne.symm hne
  constructor
  · simp [storeOpFull, retrieveOp, hl, hne2]
  · simp [retrieveOp, hl]

/-- Witness for C6: under the constant digest every pair collides; after
storing `[0]`, storing `[1]` is a `Collision` and the original `[0]` is
still what the hash retrieves. -/
theorem collision_keeps_original_spot :
    storeOpFull (fun _ => []) none none [([], [0])] [1]
      = Except.error (DataStoreError.Collision (hexEncode [])) ∧
    retrieveOp [([], [0])] [] = Except.ok [0] :=
  collision_keeps_original (fun _ => []) [] [([], [0])] [0] [1] [] rfl
    (by decide) rfl

/-- C10: a `Database` backend error raised by the pre-insert existence
check of `DataStore::store` is not propagated: the store proceeds to
attempt the insert exactly as in the no-row case (any failing retrieve is
treated as "no entry exists"). -/
theorem database_fault_treated_as_absent (hash : Bytes → Bytes) (msg : String)
    (insertFault : Option String) (st : StoreState) (d : Bytes) :
    storeOpFull hash (some msg) insertFault st d
      = (match insertFault with
         | some m => Except.error (DataStoreError.Database m)
         | none => Except.ok (hash d, st ++ [(hash d, d)])) ∧
    (lookupHash st (hash d) = none →
      storeOpFull hash (some msg) insertFault st d
        = storeOpFull hash none insertFault st d) := by
  constructor
  · rfl
  · intro hl
    simp [storeOpFull, retrieveOp, hl]

/-- Witness for C10: with a failing existence check ("io error") on an
empty table, `store` still inserts and succeeds, exactly as with a healthy
backend. -/
theorem database_fault_treated_as_absent_spot :
    storeOpFull (fun _ => [0]) (some "io error") none [] [5]
      = Except.ok ([0], [([0], [5])]) ∧
    storeOpFull (fun _ => [0]) (some "io error") none [] [5]
      = storeOpFull (fun _ => [0]) none none [] [5] := by
  have h := database_fault_treated_as_absent (fun _ => [0]) "io error" none [] [5]
  exact ⟨h.1, h.2 (by decide)⟩

/-- C9 counterexample: the digest `DataStore::store` computes and returns
is 32 bytes long, not 16 — shown at the concrete input `[]`. -/
theorem store_hash_sixteen_refuted :
    storeOp [] [] = Except.ok (blake2s256 [], [(blake2s256 [], [])]) ∧
    (blake2s256 []).length = 32 ∧ (blake2s256 []).length ≠ 16 :=
  ⟨rfl, by decide, by decide⟩

/-- C9 amended: the hash returned by `ContentStore.store d` is the
fixed-length 32-byte BLAKE2s digest of `d`. -/
theorem store_hash_is_blake2s_32 (st st2 : StoreState) (d h : Bytes)
    (hok : storeOp st d = Except.ok (h, st2)) :
    h = blake2s256 d ∧ h.length = 32 := by
  obtain ⟨hh, -⟩ := storeOpFull_ok_lookup blake2s256 st st2 d h hok
  exact ⟨hh, by rw [hh]; exact blake2s256_length d⟩

/-- Witness for the amended C9: the hash returned for `[1,2,3]` is its
BLAKE2s digest, of length 32. -/
theorem store_hash_is_blake2s_32_spot :
    blake2s256 [1, 2, 3] = blake2s256 [1, 2, 3]
      ∧ (blake2s256 [1, 2, 3]).length = 32 :=
  store_hash_is_blake2s_32 [] [(blake2s256 [1, 2, 3], [1, 2, 3])] [1, 2, 3]
    (blake2s256 [1, 2, 3]) rfl

/-! ## Event-log lemmas and claims -/

/-- The seed is a lower bound of a left max-fold. -/
theorem le_foldl_max_self (xs : List Int) (a : Int) : a ≤ xs.foldl max a := by
  induction xs generalizing a with
  | nil => exact le_refl a
  | cons x xs ih =>
      simp only [List.foldl_cons]
      exact le_trans (le_max_left a x) (ih (max a x))

/-- Every member is a lower bound of a left max-fold. -/
theorem le_foldl_max_mem (xs : List Int) (a x : Int) (hx : x ∈ xs) :
    x ≤ xs.foldl max a := by
  induction xs generalizing a with
  | nil => cases hx
  | cons y ys ih =>
      simp only [List.foldl_cons]
      rcases List.mem_cons.mp hx with h | h
      · subst h
        exact le_trans (le_max_right a x) (le_foldl_max_self ys _)
      · exact ih _ h

/-- A common upper bound of seed and members bounds a left max-fold. -/
theorem foldl_max_le (xs : List Int) (a b : Int) (ha : a ≤ b)
    (hx : ∀ x ∈ xs, x ≤ b) : xs.foldl max a ≤ b := by
  induction xs generalizing a with
  | nil => exact ha
  | cons y ys ih =>
      simp only [List.foldl_cons]
      exact ih _ (max_le ha (hx y (List.mem_cons_self y ys)))
        (fun x h => hx x (List.mem_cons_of_mem _ h))

/-- The maximum of a list is any member that bounds the whole list. -/
theorem maxInts_eq_of_bounds (xs : List Int) (m : Int) (hm : m ∈ xs)
    (hb : ∀ x ∈ xs, x ≤ m) : maxInts xs = some m := by
  cases xs with
  | nil => cases hm
  | cons y ys =>
      simp only [maxInts, Option.some.injEq]
      apply le_antisymm
      · exact foldl_max_le ys y m (hb y (List.mem_cons_self y ys))
          (fun x h => hb x (List.mem_cons_of_mem _ h))
      · rcases List.mem_cons.mp hm with h | h
        · subst h; exact le_foldl_max_self ys m
        · exact le_foldl_max_mem ys y m h

/-- Shape of a sequential batch of Mongo appends: the assigned sequences
are `counter, counter+1, …`, the counter advances by the batch length, and
the stored sequences are the old ones followed by the new ones. -/
theorem appendAll_spec (batch : List (NewEvent × Nat)) (st : MongoEventState) :
    (appendAll st batch).1
      = (List.range batch.length).map (fun i : Nat => st.counter + (i : Int)) ∧
    (appendAll st batch).2.counter = st.counter + batch.length ∧
    (appendAll st batch).2.events.map (fun e => e.sequence)
      = st.events.map (fun e => e.sequence) ++ (appendAll st batch).1 := by
  induction batch generalizing st with
  | nil => simp [appendAll]
  | cons p rest ih =>
      obtain ⟨e, now⟩ := p
      obtain ⟨ih1, ih2, ih3⟩ :=
        ih ⟨st.counter + 1, st.events ++ [⟨st.counter, e.version, e.data, now⟩]⟩
      refine ⟨?_, ?_, ?_⟩
      · simp only [appendAll, mongoStore, ih1, List.length_cons,
          List.range_succ_eq_map, List.map_cons, List.map_map, List.cons.injEq]
        constructor
        · simp
        · apply List.map_congr_left
          intro i _
          simp only [Function.comp_apply]
          push_cast
          ring
      · simp only [appendAll, mongoStore, ih2, List.length_cons]
        push_cast
        ring
      · simp only [appendAll, mongoStore] at ih1 ih3 ⊢
        simp only [ih3, List.map_append, List.map_cons, List.map_nil]
        simp

/-- C3: appending a non-empty batch of `n` events sequentially yields `n`
strictly increasing, pairwise-distinct sequence numbers, every one above
every previously assigned sequence (given the reachable-state invariant
that stored sequences are below the counter), and `current_sequence()`
after the batch returns the maximum sequence assigned. -/
theorem append_batch_sequences (st : MongoEventState) (batch : List (NewEvent × Nat))
    (hinv : ∀ ev ∈ st.events, ev.sequence < st.counter) (hne : batch ≠ []) :
    (appendAll st batch).1.length = batch.length ∧
    List.Pairwise (· < ·) (appendAll st batch).1 ∧
    (appendAll st batch).1.Nodup ∧
    (∀ ev ∈ st.events, ∀ s ∈ (appendAll st batch).1, ev.sequence < s) ∧
    currentSequence (appendAll st batch).2 = maxInts (appendAll st batch).1 ∧
    maxInts (appendAll st batch).1
      = some (st.counter + (batch.length - 1 : Nat)) := by
  obtain ⟨h1, h2, h3⟩ := appendAll_spec batch st
  have hn1 : 1 ≤ batch.length := by
    cases batch with
    | nil => exact absurd rfl hne
    | cons a l => simp
  have hpair : List.Pairwise (· < ·) (appendAll st batch).1 := by
    rw [h1]
    exact List.Pairwise.map _ (fun a b hab => by omega)
      (List.pairwise_lt_range batch.length)
  have hmem : ∀ s ∈ (appendAll st batch).1,
      ∃ i, i < batch.length ∧ s = st.counter + i := by
    intro s hs
    rw [h1] at hs
    obtain ⟨i, hi, rfl⟩ := List.mem_map.mp hs
    exact ⟨i, List.mem_range.mp hi, rfl⟩
  have hub : ∀ s ∈ (appendAll st batch).1,
      s ≤ st.counter + (batch.length - 1 : Nat) := by
    intro s hs
    obtain ⟨i, hi, rfl⟩ := hmem s hs
    omega
  have hin : st.counter + (batch.length - 1 : Nat) ∈ (appendAll st batch).1 := by
    rw [h1]
    exact List.mem_map.mpr ⟨batch.length - 1, List.mem_range.mpr (by omega), rfl⟩
  have hmax : maxInts (appendAll st batch).1
      = some (st.counter + (batch.length - 1 : Nat)) :=
    maxInts_eq_of_bounds _ _ hin hub
  refine ⟨by rw [h1]; simp, hpair, hpair.imp (fun h => ne_of_lt h), ?_, ?_, hmax⟩
  · intro ev hev s hs
    obtain ⟨i, hi, rfl⟩ := hmem s hs
    have := hinv ev hev
    omega
  · rw [hmax]
    unfold currentSequence
    rw [h3]
    apply maxInts_eq_of_bounds
    · exact List.mem_append_right _ hin
    · intro x hx
      rcases List.mem_append.mp hx with h | h
      · obtain ⟨ev, hev, rfl⟩ := List.mem_map.mp h
        have := hinv ev hev
        omega
      · exact hub x h

/-- Witness for C3: from the seeded counter 1 and an empty log, appending
three events assigns sequences `[1, 2, 3]` and `current_sequence()` then
returns 3. -/
theorem append_batch_sequences_spot :
    (appendAll ⟨1, []⟩ [(⟨1, "a"⟩, 10), (⟨1, "b"⟩, 11), (⟨2, "c"⟩, 12)]).1
      = [1, 2, 3] ∧
    currentSequence
        (appendAll ⟨1, []⟩ [(⟨1, "a"⟩, 10), (⟨1, "b"⟩, 11), (⟨2, "c"⟩, 12)]).2
      = some 3 := by
  have h := append_batch_sequences ⟨1, []⟩
    [(⟨1, "a"⟩, 10), (⟨1, "b"⟩, 11), (⟨2, "c"⟩, 12)] (by decide) (by decide)
  exact ⟨by decide, by rw [h.2.2.2.2.1, h.2.2.2.2.2]; decide⟩

/-- C4 counterexample: a unique-sequence violation maps to the very same
generic `Database` constructor as any other backend failure — there is no
distinct out-of-sequence variant in `EventStoreError`. -/
theorem out_of_sequence_variant_refuted :
    eventStoreErrorOfDiesel (DieselError.DatabaseError
        DatabaseErrorKind.UniqueViolation
        "duplicate key value violates unique constraint")
      = EventStoreError.Database "duplicate key value violates unique constraint" ∧
    eventStoreErrorOfDiesel (DieselError.other "connection reset")
      = EventStoreError.Database "connection reset" :=
  ⟨rfl, rfl⟩

/-- C4 amended: a uniqueness violation on `sequence` surfaces to the caller
as the generic `Database` error carrying the backend's diagnostic text
(`EventStoreError` has no distinct out-of-sequence variant), and the append
is not retried: the result is determined by the first backend answer
alone. -/
theorem unique_violation_is_generic_database
    (outcomes outcomes2 : Nat → Except DieselError EventRec)
    (kind : DatabaseErrorKind) (msg : String)
    (h : outcomes 0 = Except.error (DieselError.DatabaseError kind msg))
    (h2 : outcomes2 0 = outcomes 0) :
    postgresStore outcomes = Except.error (EventStoreError.Database msg) ∧
    postgresStore outcomes2 = postgresStore outcomes := by
  constructor
  · simp [postgresStore, h, eventStoreErrorOfDiesel, dieselDisplay]
  · simp [postgresStore, h2]

/-- Witness for the amended C4: a backend that reports a duplicate-key
violation makes `append` fail with the generic `Database` error, and a
backend whose later answers differ gives the same result — only the single
attempt counts. -/
theorem unique_violation_is_generic_database_spot :
    postgresStore (fun _ => Except.error (DieselError.DatabaseError
        DatabaseErrorKind.UniqueViolation
        "duplicate key value violates unique constraint"))
      = Except.error (EventStoreError.Database
          "duplicate key value violates unique constraint") ∧
    postgresStore (fun n => if n = 0 then Except.error (DieselError.DatabaseError
        DatabaseErrorKind.UniqueViolation
        "duplicate key value violates unique constraint")
      else Except.ok ⟨99⟩)
      = postgresStore (fun _ => Except.error (DieselError.DatabaseError
          DatabaseErrorKind.UniqueViolation
          "duplicate key value violates unique constraint")) :=
  unique_violation_is_generic_database _ _ DatabaseErrorKind.UniqueViolation _ rfl rfl

/-! ## Notification-broker lemmas and claims -/

/-- The monitor thread contributes no frames to the socket output. -/
theorem flatten_monitor_frames (evs : List SocketEventKind) :
    (evs.map (fun e => (pollMonitorEffect "Publish" e).2.1)).flatten
      = ([] : List Frame) := by
  induction evs with
  | nil => rfl
  | cons a l ih => simp [pollMonitorEffect, ih]

/-- The worker processes queue segments independently. -/
theorem runWorker_append (xs ys : List (PublishMessage × SendFaults)) :
    runWorker (xs ++ ys) = runWorker xs ++ runWorker ys := by
  induction xs with
  | nil => rfl
  | cons p rest ih =>
      obtain ⟨m, f⟩ := p
      cases m with
      | Sequence id =>
          simp only [List.cons_append, runWorker]
          split_ifs <;> simp [ih]
      | Forward t d =>
          simp only [List.cons_append, runWorker]
          split_ifs <;> simp [ih]

/-- C2 counterexample: at the concrete run "sequence 5 was published, then
a subscriber connection is accepted", the accepted-connection monitor event
emits no frame and enqueues no work — the only `"sequence"` frame on the
wire is the one from the original publish, and the monitor merely logs.
The late joiner receives nothing until a new event occurs. -/
theorem connection_accepted_republish_refuted :
    (pollMonitorEffect "Publish" SocketEventKind.accepted).2.1 = [] ∧
    (pollMonitorEffect "Publish" SocketEventKind.accepted).2.2 = [] ∧
    brokerRun [(PublishMessage.Sequence 5, noFaults)] [SocketEventKind.accepted]
      = ([⟨"sequence", rmpEncodeI64 5⟩], [LogEntry.debugAccepted "Publish"]) :=
  ⟨rfl, rfl, by decide⟩

/-- C2 amended: on `ConnectionAccepted` the monitor worker only logs a
debug entry; it re-emits nothing and enqueues nothing, so the socket
output of a run is exactly the publish queue's frames — a late-joining
subscriber receives the latest sequence only when it is next published. -/
theorem monitor_accept_only_logs (queue : List (PublishMessage × SendFaults))
    (evs : List SocketEventKind) (e : SocketEventKind) :
    (brokerRun queue evs).1 = runWorker queue ∧
    (brokerRun queue evs).2 = evs.map (pollMonitorStep "Publish") ∧
    (pollMonitorEffect "Publish" e).2.1 = [] ∧
    (pollMonitorEffect "Publish" e).2.2 = [] ∧
    pollMonitorStep "Publish" SocketEventKind.accepted
      = LogEntry.debugAccepted "Publish" := by
  refine ⟨?_, rfl, rfl, rfl, rfl⟩
  simp [brokerRun, flatten_monitor_frames]

/-- C7: on a fault-free run the worker emits exactly one two-part frame
per dequeued item, whole and in FIFO enqueue order — `"sequence"` plus the
compact msgpack encoding for a `Sequence(n)` item, the caller's topic plus
the payload verbatim for a `Forward` item. -/
theorem worker_frames_fifo (msgs : List PublishMessage) (n : Int)
    (t : String) (d : Bytes) :
    runWorker (msgs.map (fun m => (m, noFaults))) = msgs.map itemFrame ∧
    itemFrame (PublishMessage.Sequence n) = ⟨"sequence", rmpEncodeI64 n⟩ ∧
    itemFrame (PublishMessage.Forward t d) = ⟨t, d⟩ := by
  refine ⟨?_, rfl, rfl⟩
  induction msgs with
  | nil => rfl
  | cons m rest ih =>
      cases m with
      | Sequence id =>
          simp only [List.map_cons, runWorker, itemFrame]
          rw [show noFaults.encodeFail = false from rfl,
            show noFaults.sendFail = false from rfl]
          simp [ih]
      | Forward t2 d2 =>
          simp only [List.map_cons, runWorker, itemFrame]
          rw [show noFaults.sendFail = false from rfl]
          simp [ih]

/-- C8: a notification-layer failure (encode failure or transport send
failure) is absorbed inside the broker: the single affected item is
dropped, the worker continues with the rest of the queue, and the response
of the `event_put` that triggered the notification is still 201 Created —
a persisted event write is never reported as failed by a worker-side
notification fault. -/
theorem notification_failure_absorbed (i : Int)
    (xs ys : List (PublishMessage × SendFaults))
    (m : PublishMessage) (f : SendFaults) (hf : dropsItem m f = true) :
    runWorker (xs ++ (m, f) :: ys) = runWorker xs ++ runWorker ys ∧
    runWorker [(m, f)] = [] ∧
    eventPutResponse (Except.ok i) (Except.ok ()) (Except.ok ())
      = ApiResponse.created i := by
  have key : ∀ rest, runWorker ((m, f) :: rest) = runWorker rest := by
    intro rest
    cases m with
    | Sequence id =>
        simp only [dropsItem, Bool.or_eq_true] at hf
        rcases hf with h | h
        · simp [runWorker, h]
        · cases he : f.encodeFail <;> simp [runWorker, he, h]
    | Forward t d =>
        simp only [dropsItem] at hf
        simp [runWorker, hf]
  exact ⟨by rw [runWorker_append, key ys], key [], rfl⟩

/-- Witness for C8: an encode failure on `Sequence 5` drops that one
notification, the queued forward after it is still emitted, and the
triggering `event_put` still answers 201 Created with its sequence. -/
theorem notification_failure_absorbed_spot :
    runWorker [(PublishMessage.Sequence 5, ⟨true, false⟩),
               (PublishMessage.Forward "a" [1], noFaults)]
      = runWorker []
          ++ runWorker [(PublishMessage.Forward "a" [1], noFaults)] ∧
    runWorker [(PublishMessage.Sequence 5, ⟨true, false⟩)] = [] ∧
    eventPutResponse (Except.ok 7) (Except.ok ()) (Except.ok ())
      = ApiResponse.created 7 :=
  notification_failure_absorbed 7 [] [(PublishMessage.Forward "a" [1], noFaults)]
    (PublishMessage.Sequence 5) ⟨true, false⟩ (by decide)

end ReactrixStore
